import Mathlib

/-!
Shallow embedding of the enrollment service (src/enrollment-service/main.py):
the admission engine (REST `enroll` endpoint and gRPC `Enroll` method), the
drop workflow (`DropEnrollment`), and the roster query (`course_roster` /
`ListCourseRoster`), over an explicit in-memory state standing for the
relational store.  Opaque UUIDs are modelled as `Nat`; the status string
column takes only the three enum values, so it is modelled as a closed sum
type; nullable text columns are `Option String`.
-/

namespace EnrollmentSvc

/-- The `EnrollmentStatus` enum from the source: ENROLLED, WAITLISTED, DROPPED. -/
inductive EnrollmentStatus where
  | enrolled
  | waitlisted
  | dropped
deriving DecidableEq, Repr

/-- A row of `enrollment.enrollments`: id, student_id, course_id, status. -/
structure Enrollment where
  id : Nat
  student_id : Nat
  course_id : Nat
  status : EnrollmentStatus
deriving DecidableEq, Repr

/-- A row of `enrollment.courses` (the fields the admission logic reads). -/
structure Course where
  id : Nat
  code : String
  capacity : Nat
  term : Option String
  academic_year : Option String
deriving DecidableEq, Repr

/-- A row of `enrollment.students` (the shadow cache of student identity). -/
structure Student where
  id : Nat
  name : String
  user_number : Option String
deriving DecidableEq, Repr

/-- The database state seen by the service: the three tables, plus a counter
supplying the fresh ids that `uuid4` generates for inserted enrollments. -/
structure State where
  courses : List Course
  students : List Student
  enrollments : List Enrollment
  nextId : Nat
deriving Repr

/-- Embeds `db.query(Course).filter(Course.id == course_id).first()`. -/
def findCourse (cs : List Course) (cid : Nat) : Option Course :=
  cs.find? (fun c => c.id == cid)

/-- Embeds `db.query(Student.id).filter(Student.id == student_id).first()` as a
membership test. -/
def studentExists (sts : List Student) (sid : Nat) : Bool :=
  sts.any (fun st => st.id == sid)

/-- The `ensure_student` helper: insert a shadow row if absent, then commit.  The REST
path calls it with only the student id, so name is `""` and user_number is
`NULL`. -/
def ensureStudent (s : State) (sid : Nat) : State :=
  if studentExists s.students sid then s
  else { s with students := s.students ++ [{ id := sid, name := "", user_number := none }] }

/-- The cross-section query: enrollments joined with courses on
`Course.id == Enrollment.course_id`, filtered to this student, to courses
sharing the target code, and to non-DROPPED status; the code only tests
whether `.first()` found a row. -/
def crossSectionHit (cs : List Course) (es : List Enrollment) (sid : Nat) (code : String) : Bool :=
  es.any (fun e =>
    e.student_id == sid && e.status != EnrollmentStatus.dropped &&
      cs.any (fun c => c.id == e.course_id && c.code == code))

/-- Embeds `db.query(Enrollment).filter(student_id == sid, course_id == cid).first()`. -/
def findSamePair (es : List Enrollment) (sid cid : Nat) : Option Enrollment :=
  es.find? (fun e => e.student_id == sid && e.course_id == cid)

/-- Embeds `SELECT count(*) FROM enrollments WHERE course_id = cid AND status = ENROLLED`. -/
def enrolledCount (es : List Enrollment) (cid : Nat) : Nat :=
  (es.filter (fun e => e.course_id == cid && e.status == EnrollmentStatus.enrolled)).length

/-- An ORM attribute assignment plus commit: the row with this primary key
gets the new status; every other row is untouched. -/
def setStatus (es : List Enrollment) (eid : Nat) (st : EnrollmentStatus) : List Enrollment :=
  es.map (fun e => if e.id == eid then { e with status := st } else e)

/-- Body returned by the REST `enroll` endpoint on success. -/
structure RestRecord where
  id : Nat
  student_id : Nat
  course_id : Nat
  status : EnrollmentStatus
deriving DecidableEq, Repr

/-- Outcome of the REST `enroll` endpoint.  `httpError` is a raised
`HTTPException` (status code, detail); `pythonError` is an uncaught Python
exception escaping the handler (surfaced as a 500 by the framework). -/
inductive RestResult where
  | ok (record : RestRecord)
  | httpError (code : Nat) (detail : String)
  | pythonError (msg : String)
deriving DecidableEq, Repr

/-- REST `POST /enrollments` (`enroll` in the source).  `insertRaces` models
the environment: it is true when the final insert loses a storage-level
uniqueness race on (student_id, course_id), making `db.commit()` raise
`IntegrityError`; in a sequential run it is false.

The source consults `status` inside the dropped-record branch, but `status`
is a local variable first assigned only later (after the occupancy count),
so that branch raises `UnboundLocalError`; the embedding records this as
`pythonError`. -/
def restEnroll (s : State) (sid cid : Nat) (insertRaces : Bool) : RestResult × State :=
  match findCourse s.courses cid with
  | none => (.httpError 404 "Course not found", s)
  | some course =>
    let s1 := ensureStudent s sid
    if crossSectionHit s1.courses s1.enrollments sid course.code then
      (.httpError 409 "Already enrolled in another section of this course", s1)
    else
      match findSamePair s1.enrollments sid cid with
      | some existing =>
        if existing.status != EnrollmentStatus.dropped then
          (.httpError 409 "Already enrolled in this course section", s1)
        else
          (.pythonError "UnboundLocalError: local variable status referenced before assignment", s1)
      | none =>
        let current := enrolledCount s1.enrollments cid
        let status := if current < course.capacity then EnrollmentStatus.enrolled
          else EnrollmentStatus.waitlisted
        if insertRaces then
          (.httpError 409 "Already enrolled", s1)
        else
          let enr : Enrollment := { id := s1.nextId, student_id := sid, course_id := cid, status := status }
          (.ok { id := enr.id, student_id := sid, course_id := cid, status := status },
            { s1 with enrollments := s1.enrollments ++ [enr], nextId := s1.nextId + 1 })

/-- gRPC status codes used by the service. -/
inductive GrpcCode where
  | notFound
  | alreadyExists
deriving DecidableEq, Repr

/-- The `Enrollment` protobuf message returned by gRPC `Enroll`. -/
structure GrpcRecord where
  id : Nat
  student_id : Nat
  course_id : Nat
  status : EnrollmentStatus
  term : String
  academic_year : String
deriving DecidableEq, Repr

/-- Outcome of the gRPC `Enroll` method. -/
inductive GrpcResult where
  | ok (record : GrpcRecord)
  | err (code : GrpcCode) (details : String)
deriving DecidableEq, Repr

/-- gRPC `EnrollmentService.Enroll`.  Unlike the REST path it computes the
occupancy and the would-be status before the conflict checks, reuses a
DROPPED row in place on re-enrollment, and calls `ensure_student` only just
before inserting a fresh row.  `insertRaces` models the final insert losing
the (student_id, course_id) uniqueness race, which the `except
IntegrityError` arm turns into ALREADY_EXISTS after a rollback. -/
def grpcEnroll (s : State) (sid cid : Nat) (insertRaces : Bool) : GrpcResult × State :=
  match findCourse s.courses cid with
  | none => (.err .notFound "Course not found", s)
  | some course =>
    let current := enrolledCount s.enrollments cid
    let status := if current < course.capacity then EnrollmentStatus.enrolled
      else EnrollmentStatus.waitlisted
    if crossSectionHit s.courses s.enrollments sid course.code then
      (.err .alreadyExists "Already enrolled in another section of this course", s)
    else
      match findSamePair s.enrollments sid cid with
      | some existing =>
        if existing.status != EnrollmentStatus.dropped then
          (.err .alreadyExists "Already enrolled in this course section", s)
        else
          (.ok { id := existing.id, student_id := existing.student_id,
                 course_id := existing.course_id, status := status,
                 term := course.term.getD "", academic_year := course.academic_year.getD "" },
            { s with enrollments := setStatus s.enrollments existing.id status })
      | none =>
        let s1 := ensureStudent s sid
        if insertRaces then
          (.err .alreadyExists "Already enrolled", s1)
        else
          let enr : Enrollment := { id := s1.nextId, student_id := sid, course_id := cid, status := status }
          (.ok { id := enr.id, student_id := sid, course_id := cid, status := status,
                 term := course.term.getD "", academic_year := course.academic_year.getD "" },
            { s1 with enrollments := s1.enrollments ++ [enr], nextId := s1.nextId + 1 })

/-- Outcome of gRPC `DropEnrollment`. -/
inductive DropResult where
  | ok (record : GrpcRecord)
  | err (code : GrpcCode) (details : String)
deriving DecidableEq, Repr

/-- The drop lookup: enrollments inner-joined with courses on
`Course.id == Enrollment.course_id`, filtered on `Enrollment.id`, `.first()`. -/
def dropLookup (s : State) (eid : Nat) : Option (Enrollment × Course) :=
  (s.enrollments.filterMap (fun e =>
    (findCourse s.courses e.course_id).map (fun c => (e, c)))).find? (fun p => p.1.id == eid)

/-- gRPC `EnrollmentService.DropEnrollment`: NOT_FOUND when the joined lookup
finds nothing; otherwise set the status of the row to DROPPED unconditionally and
return the updated record with the term and academic year of the course. -/
def dropEnrollment (s : State) (eid : Nat) : DropResult × State :=
  match dropLookup s eid with
  | none => (.err .notFound "Enrollment not found", s)
  | some (e, c) =>
    (.ok { id := e.id, student_id := e.student_id, course_id := e.course_id,
           status := .dropped, term := c.term.getD "", academic_year := c.academic_year.getD "" },
      { s with enrollments := setStatus s.enrollments e.id EnrollmentStatus.dropped })

/-- The roster rows: enrollments inner-joined with students on
`Student.id == Enrollment.student_id`, filtered to this course and to
status ENROLLED (shared by the REST and gRPC roster handlers). -/
def rosterRows (s : State) (cid : Nat) : List (Enrollment × Student) :=
  s.enrollments.filterMap (fun e =>
    if e.course_id == cid && e.status == EnrollmentStatus.enrolled then
      (s.students.find? (fun st => st.id == e.student_id)).map (fun st => (e, st))
    else none)

/-- A `RosterEntry` protobuf message / REST roster item. -/
structure RosterEntry where
  student_id : Nat
  student_name : String
  user_number : String
  status : EnrollmentStatus
deriving DecidableEq, Repr

/-- gRPC `ListCourseRoster` (the REST `course_roster` handler builds the same
rows; it leaves `user_number` nullable where gRPC substitutes `""`). -/
def listCourseRoster (s : State) (cid : Nat) : List RosterEntry :=
  (rosterRows s cid).map (fun p =>
    { student_id := p.1.student_id, student_name := p.2.name,
      user_number := p.2.user_number.getD "", status := p.1.status })

/-- One request against the service, for reachability statements: a REST
admission, a gRPC admission, or a gRPC drop (each with the race flag of its
environment where applicable). -/
inductive Op where
  | viaRest (sid cid : Nat) (races : Bool)
  | viaGrpc (sid cid : Nat) (races : Bool)
  | viaDrop (eid : Nat)
deriving DecidableEq, Repr

/-- The state left behind by one request. -/
def applyOp (s : State) : Op → State
  | .viaRest sid cid races => (restEnroll s sid cid races).2
  | .viaGrpc sid cid races => (grpcEnroll s sid cid races).2
  | .viaDrop eid => (dropEnrollment s eid).2

/-- Run a sequence of requests. -/
def runOps (s : State) (ops : List Op) : State :=
  ops.foldl applyOp s

/-- The course code recorded for a course id (primary-key lookup). -/
def codeOf (cs : List Course) (cid : Nat) : Option String :=
  (findCourse cs cid).map (fun c => c.code)

/-- At most one non-dropped record per (student_id, course_id) pair. -/
def UniqueActivePair (es : List Enrollment) : Prop :=
  es.Pairwise (fun e1 e2 =>
    e1.status ≠ .dropped → e2.status ≠ .dropped →
      ¬(e1.student_id = e2.student_id ∧ e1.course_id = e2.course_id))

/-- At most one non-dropped record per (student, course-code) pair across
all sections sharing that code. -/
def UniqueActiveCode (cs : List Course) (es : List Enrollment) : Prop :=
  es.Pairwise (fun e1 e2 =>
    e1.status ≠ .dropped → e2.status ≠ .dropped → e1.student_id = e2.student_id →
      ∀ k, codeOf cs e1.course_id = some k → codeOf cs e2.course_id ≠ some k)

/-- The stronger invariant actually maintained by the handlers, used to
derive the claimed ones: record ids are pairwise distinct, at most one
record — of any status — exists per (student_id, course_id) pair (the
unique index of the schema), and every record id is below the fresh-id counter. -/
def PairInv (es : List Enrollment) : Prop :=
  es.Pairwise (fun e1 e2 => e1.id ≠ e2.id ∧
    ¬(e1.student_id = e2.student_id ∧ e1.course_id = e2.course_id))

/-- Auxiliary induction invariant for reachable states. -/
def Inv (s : State) : Prop :=
  PairInv s.enrollments ∧ UniqueActiveCode s.courses s.enrollments ∧
    ∀ e ∈ s.enrollments, e.id < s.nextId

/-! ### Concrete fixtures used by the closed theorems -/

def courseCS1 : Course :=
  { id := 1, code := "CS101", capacity := 30, term := some "T1", academic_year := some "AY2025" }

def alice : Student := { id := 10, name := "Alice", user_number := some "S-10" }

/-- A state holding a DROPPED record for (student 10, course 1): the
re-enrollment situation. -/
def stateReadmit : State :=
  { courses := [courseCS1], students := [alice],
    enrollments := [{ id := 100, student_id := 10, course_id := 1, status := .dropped }],
    nextId := 101 }

/-- A state holding an ENROLLED record for (student 10, course 1): the
exact-pair duplicate situation, with no other section of code CS101. -/
def stateDup : State :=
  { courses := [courseCS1], students := [alice],
    enrollments := [{ id := 100, student_id := 10, course_id := 1, status := .enrolled }],
    nextId := 101 }

/-- A state with course 1 present and no enrollments at all. -/
def stateFresh : State :=
  { courses := [courseCS1], students := [alice], enrollments := [], nextId := 0 }

/-- A second section of CS101: same code, different course id. -/
def courseCS1sec2 : Course :=
  { id := 2, code := "CS101", capacity := 30, term := some "T1", academic_year := some "AY2025" }

/-- Two sections of CS101; student 10 is ENROLLED in section 1. -/
def stateTwoSections : State :=
  { courses := [courseCS1, courseCS1sec2], students := [alice],
    enrollments := [{ id := 100, student_id := 10, course_id := 1, status := .enrolled }],
    nextId := 101 }

/-! ### Basic facts about the embedded queries -/

theorem ensureStudent_enrollments (s : State) (sid : Nat) :
    (ensureStudent s sid).enrollments = s.enrollments := by
  unfold ensureStudent; split <;> rfl

theorem ensureStudent_courses (s : State) (sid : Nat) :
    (ensureStudent s sid).courses = s.courses := by
  unfold ensureStudent; split <;> rfl

theorem ensureStudent_nextId (s : State) (sid : Nat) :
    (ensureStudent s sid).nextId = s.nextId := by
  unfold ensureStudent; split <;> rfl

theorem ensureStudent_students_cases (s : State) (sid : Nat) :
    (ensureStudent s sid).students = s.students ∨
      (ensureStudent s sid).students =
        s.students ++ [{ id := sid, name := "", user_number := none }] := by
  unfold ensureStudent; split
  · exact Or.inl rfl
  · exact Or.inr rfl

theorem studentExists_ensureStudent (s : State) (sid : Nat) :
    studentExists (ensureStudent s sid).students sid = true := by
  unfold ensureStudent; split
  · assumption
  · unfold studentExists
    simp

theorem findCourse_mem {cs : List Course} {cid : Nat} {c : Course}
    (h : findCourse cs cid = some c) : c ∈ cs ∧ c.id = cid := by
  refine ⟨List.mem_of_find?_eq_some h, ?_⟩
  have := List.find?_some h
  simpa using this

theorem codeOf_eq_some {cs : List Course} {cid : Nat} {k : String} :
    codeOf cs cid = some k ↔ ∃ c, findCourse cs cid = some c ∧ c.code = k := by
  unfold codeOf
  cases h : findCourse cs cid <;> simp

theorem crossSectionHit_of_witness {cs : List Course} {es : List Enrollment} {sid : Nat}
    {code : String} {e : Enrollment} {c : Course} (he : e ∈ es) (hsid : e.student_id = sid)
    (hst : e.status ≠ .dropped) (hc : c ∈ cs) (hcid : c.id = e.course_id)
    (hcode : c.code = code) : crossSectionHit cs es sid code = true := by
  unfold crossSectionHit
  rw [List.any_eq_true]
  refine ⟨e, he, ?_⟩
  simp only [Bool.and_eq_true, List.any_eq_true, beq_iff_eq, bne_iff_ne]
  exact ⟨⟨hsid, hst⟩, c, hc, hcid, hcode⟩

theorem not_crossSectionHit {cs : List Course} {es : List Enrollment} {sid : Nat} {code : String}
    (h : crossSectionHit cs es sid code = false) :
    ∀ e ∈ es, e.student_id = sid → e.status ≠ .dropped →
      ∀ c ∈ cs, c.id = e.course_id → c.code ≠ code := by
  intro e he hsid hst c hc hcid hcode
  have htrue := crossSectionHit_of_witness he hsid hst hc hcid hcode
  rw [h] at htrue
  exact Bool.false_ne_true htrue

theorem findSamePair_none {es : List Enrollment} {sid cid : Nat}
    (h : findSamePair es sid cid = none) :
    ∀ e ∈ es, ¬(e.student_id = sid ∧ e.course_id = cid) := by
  intro e he
  unfold findSamePair at h
  rw [List.find?_eq_none] at h
  have := h e he
  simpa using this

theorem findSamePair_some {es : List Enrollment} {sid cid : Nat} {e : Enrollment}
    (h : findSamePair es sid cid = some e) :
    e ∈ es ∧ e.student_id = sid ∧ e.course_id = cid := by
  refine ⟨List.mem_of_find?_eq_some h, ?_⟩
  have := List.find?_some h
  simpa using this

theorem setStatus_id (es : List Enrollment) (eid : Nat) (st : EnrollmentStatus) :
    ∀ e ∈ setStatus es eid st, ∃ e0 ∈ es, e.id = e0.id ∧
      e.student_id = e0.student_id ∧ e.course_id = e0.course_id := by
  intro e he
  unfold setStatus at he
  rw [List.mem_map] at he
  obtain ⟨e0, he0, heq⟩ := he
  refine ⟨e0, he0, ?_⟩
  subst heq
  split <;> simp

/-! ### Inversion lemmas for the two admission handlers -/

theorem restEnroll_ok_inv {s : State} {sid cid : Nat} {races : Bool} {r : RestRecord}
    {s2 : State} (h : restEnroll s sid cid races = (.ok r, s2)) :
    ∃ c, findCourse s.courses cid = some c ∧
      crossSectionHit s.courses s.enrollments sid c.code = false ∧
      findSamePair s.enrollments sid cid = none ∧
      r = { id := s.nextId, student_id := sid, course_id := cid,
            status := if enrolledCount s.enrollments cid < c.capacity then
              EnrollmentStatus.enrolled else EnrollmentStatus.waitlisted } ∧
      s2.courses = s.courses ∧ s2.nextId = s.nextId + 1 ∧
      s2.enrollments = s.enrollments ++
        [{ id := s.nextId, student_id := sid, course_id := cid,
           status := if enrolledCount s.enrollments cid < c.capacity then
             EnrollmentStatus.enrolled else EnrollmentStatus.waitlisted }] := by
  unfold restEnroll at h
  split at h
  · simp at h
  · rename_i c hc
    simp only [ensureStudent_courses, ensureStudent_enrollments, ensureStudent_nextId] at h
    split at h
    · simp at h
    · rename_i hcross
      split at h
      · split at h <;> simp at h
      · rename_i hpair
        split at h
        · simp at h
        · injection h with hr hs2
          injection hr with hr'
          refine ⟨c, hc, by simpa using hcross, hpair, hr'.symm, ?_, ?_, ?_⟩ <;>
            rw [← hs2]

theorem restEnroll_err_inv {s : State} {sid cid : Nat} {races : Bool} {code : Nat}
    {detail : String} {s2 : State}
    (h : restEnroll s sid cid races = (.httpError code detail, s2)) :
    s2.enrollments = s.enrollments ∧ s2.courses = s.courses ∧
    (code = 404 → s2 = s) ∧ (code ≠ 404 → s2 = ensureStudent s sid) := by
  unfold restEnroll at h
  split at h
  · injection h with hr hs2
    injection hr with hcode hdetail
    subst hs2
    exact ⟨rfl, rfl, fun _ => rfl, fun hne => absurd hcode.symm hne⟩
  · rename_i c hc
    simp only [ensureStudent_courses, ensureStudent_enrollments, ensureStudent_nextId] at h
    split at h
    · injection h with hr hs2
      injection hr with hcode hdetail
      subst hs2
      refine ⟨ensureStudent_enrollments s sid, ensureStudent_courses s sid, ?_, fun _ => rfl⟩
      intro h404
      rw [← hcode] at h404
      cases h404
    · split at h
      · split at h
        · injection h with hr hs2
          injection hr with hcode hdetail
          subst hs2
          refine ⟨ensureStudent_enrollments s sid, ensureStudent_courses s sid, ?_, fun _ => rfl⟩
          intro h404
          rw [← hcode] at h404
          cases h404
        · simp at h
      · split at h
        · injection h with hr hs2
          injection hr with hcode hdetail
          subst hs2
          refine ⟨ensureStudent_enrollments s sid, ensureStudent_courses s sid, ?_, fun _ => rfl⟩
          intro h404
          rw [← hcode] at h404
          cases h404
        · simp at h

theorem restEnroll_state_cases (s : State) (sid cid : Nat) (races : Bool) :
    ((restEnroll s sid cid races).2.courses = s.courses ∧
     (restEnroll s sid cid races).2.enrollments = s.enrollments ∧
     (restEnroll s sid cid races).2.nextId = s.nextId) ∨
    (∃ c, findCourse s.courses cid = some c ∧
      crossSectionHit s.courses s.enrollments sid c.code = false ∧
      findSamePair s.enrollments sid cid = none ∧
      (restEnroll s sid cid races).2.courses = s.courses ∧
      (restEnroll s sid cid races).2.nextId = s.nextId + 1 ∧
      ∃ st, (restEnroll s sid cid races).2.enrollments =
        s.enrollments ++ [{ id := s.nextId, student_id := sid, course_id := cid, status := st }]) := by
  rcases hres : restEnroll s sid cid races with ⟨r, s2⟩
  simp only [hres]
  unfold restEnroll at hres
  split at hres
  · injection hres with hr hs2
    subst hs2
    exact Or.inl ⟨rfl, rfl, rfl⟩
  · rename_i c hc
    simp only [ensureStudent_courses, ensureStudent_enrollments, ensureStudent_nextId] at hres
    split at hres
    · injection hres with hr hs2
      subst hs2
      exact Or.inl ⟨ensureStudent_courses s sid, ensureStudent_enrollments s sid,
        ensureStudent_nextId s sid⟩
    · rename_i hcross
      split at hres
      · split at hres <;>
        · injection hres with hr hs2
          subst hs2
          exact Or.inl ⟨ensureStudent_courses s sid, ensureStudent_enrollments s sid,
            ensureStudent_nextId s sid⟩
      · rename_i hpair
        split at hres
        · injection hres with hr hs2
          subst hs2
          exact Or.inl ⟨ensureStudent_courses s sid, ensureStudent_enrollments s sid,
            ensureStudent_nextId s sid⟩
        · injection hres with hr hs2
          subst hs2
          exact Or.inr ⟨c, hc, by simpa using hcross, hpair, rfl, rfl, _, rfl⟩

theorem grpcEnroll_ok_inv {s : State} {sid cid : Nat} {races : Bool} {r : GrpcRecord}
    {s2 : State} (h : grpcEnroll s sid cid races = (.ok r, s2)) :
    ∃ c, findCourse s.courses cid = some c ∧
      r.status = (if enrolledCount s.enrollments cid < c.capacity then
        EnrollmentStatus.enrolled else EnrollmentStatus.waitlisted) ∧
      r.term = c.term.getD "" ∧ r.academic_year = c.academic_year.getD "" := by
  unfold grpcEnroll at h
  split at h
  · simp at h
  · rename_i c hc
    simp only [ensureStudent_courses, ensureStudent_enrollments, ensureStudent_nextId] at h
    split at h
    · simp at h
    · split at h
      · split at h
        · simp at h
        · injection h with hr hs2
          injection hr with hr'
          exact ⟨c, hc, by rw [← hr'], by rw [← hr'], by rw [← hr']⟩
      · split at h
        · simp at h
        · injection h with hr hs2
          injection hr with hr'
          exact ⟨c, hc, by rw [← hr'], by rw [← hr'], by rw [← hr']⟩

theorem grpcEnroll_err_inv {s : State} {sid cid : Nat} {races : Bool} {code : GrpcCode}
    {detail : String} {s2 : State}
    (h : grpcEnroll s sid cid races = (.err code detail, s2)) :
    s2.enrollments = s.enrollments ∧ s2.courses = s.courses ∧
    (s2 = s ∨ s2 = ensureStudent s sid) := by
  unfold grpcEnroll at h
  split at h
  · injection h with hr hs2
    subst hs2
    exact ⟨rfl, rfl, Or.inl rfl⟩
  · rename_i c hc
    simp only [ensureStudent_courses, ensureStudent_enrollments, ensureStudent_nextId] at h
    split at h
    · injection h with hr hs2
      subst hs2
      exact ⟨rfl, rfl, Or.inl rfl⟩
    · split at h
      · split at h
        · injection h with hr hs2
          subst hs2
          exact ⟨rfl, rfl, Or.inl rfl⟩
        · simp at h
      · split at h
        · injection h with hr hs2
          subst hs2
          exact ⟨ensureStudent_enrollments s sid, ensureStudent_courses s sid, Or.inr rfl⟩
        · simp at h

theorem grpcEnroll_state_cases (s : State) (sid cid : Nat) (races : Bool) :
    ((grpcEnroll s sid cid races).2.courses = s.courses ∧
     (grpcEnroll s sid cid races).2.enrollments = s.enrollments ∧
     (grpcEnroll s sid cid races).2.nextId = s.nextId) ∨
    (∃ c, findCourse s.courses cid = some c ∧
      crossSectionHit s.courses s.enrollments sid c.code = false ∧
      findSamePair s.enrollments sid cid = none ∧
      (grpcEnroll s sid cid races).2.courses = s.courses ∧
      (grpcEnroll s sid cid races).2.nextId = s.nextId + 1 ∧
      ∃ st, (grpcEnroll s sid cid races).2.enrollments =
        s.enrollments ++ [{ id := s.nextId, student_id := sid, course_id := cid, status := st }]) ∨
    (∃ c existing st, findCourse s.courses cid = some c ∧
      crossSectionHit s.courses s.enrollments sid c.code = false ∧
      findSamePair s.enrollments sid cid = some existing ∧
      existing.status = .dropped ∧
      (grpcEnroll s sid cid races).2.courses = s.courses ∧
      (grpcEnroll s sid cid races).2.nextId = s.nextId ∧
      (grpcEnroll s sid cid races).2.enrollments = setStatus s.enrollments existing.id st) := by
  rcases hres : grpcEnroll s sid cid races with ⟨r, s2⟩
  simp only [hres]
  unfold grpcEnroll at hres
  split at hres
  · injection hres with hr hs2
    subst hs2
    exact Or.inl ⟨rfl, rfl, rfl⟩
  · rename_i c hc
    simp only [ensureStudent_courses, ensureStudent_enrollments, ensureStudent_nextId] at hres
    split at hres
    · injection hres with hr hs2
      subst hs2
      exact Or.inl ⟨rfl, rfl, rfl⟩
    · rename_i hcross
      split at hres
      · rename_i existing hpair
        split at hres
        · injection hres with hr hs2
          subst hs2
          exact Or.inl ⟨rfl, rfl, rfl⟩
        · rename_i hdrop
          injection hres with hr hs2
          subst hs2
          refine Or.inr (Or.inr ⟨c, existing, _, hc, by simpa using hcross, hpair, ?_, rfl, rfl, rfl⟩)
          simpa using hdrop
      · rename_i hpair
        split at hres
        · injection hres with hr hs2
          subst hs2
          exact Or.inl ⟨ensureStudent_courses s sid, ensureStudent_enrollments s sid,
            ensureStudent_nextId s sid⟩
        · injection hres with hr hs2
          subst hs2
          exact Or.inr (Or.inl ⟨c, hc, by simpa using hcross, hpair, rfl, rfl, _, rfl⟩)

theorem dropEnrollment_state_cases (s : State) (eid : Nat) :
    (dropEnrollment s eid).2 = s ∨
    ((dropEnrollment s eid).2.courses = s.courses ∧
     (dropEnrollment s eid).2.nextId = s.nextId ∧
     ∃ eid0, (dropEnrollment s eid).2.enrollments =
       setStatus s.enrollments eid0 EnrollmentStatus.dropped) := by
  rcases hres : dropEnrollment s eid with ⟨r, s2⟩
  simp only [hres]
  unfold dropEnrollment at hres
  split at hres
  · injection hres with hr hs2
    subst hs2
    exact Or.inl rfl
  · injection hres with hr hs2
    subst hs2
    exact Or.inr ⟨rfl, rfl, _, rfl⟩

/-- C1: with a DROPPED record for (student 10, course 1) and no other record,
Admit(10, 1) is claimed to reuse the record in both transports.  The gRPC
method does (same id 100, recomputed status); the REST handler instead
raises `UnboundLocalError` — its dropped-record branch reads the local
`status` before the line that assigns it — so the REST re-enrollment path
can never succeed.  This theorem evaluates both handlers at that state. -/
theorem c1_rest_reenrollment_crashes_grpc_reuses :
    restEnroll stateReadmit 10 1 false =
      (.pythonError "UnboundLocalError: local variable status referenced before assignment",
        stateReadmit) ∧
    grpcEnroll stateReadmit 10 1 false =
      (.ok { id := 100, student_id := 10, course_id := 1, status := .enrolled,
             term := "T1", academic_year := "AY2025" },
        { stateReadmit with
            enrollments := [{ id := 100, student_id := 10, course_id := 1, status := .enrolled }] }) := by
  constructor <;> rfl

/-- C2: a second Admit for the exact enrolled pair is claimed to fail with
reason "Already enrolled in this course section".  In both handlers the
cross-section check runs first and does not exclude the requested course id
itself, so the matching record is the own enrollment of the student in course 1
and the call fails with the cross-section reason instead; the intended
exact-duplicate branch is unreachable for non-dropped records. -/
theorem c2_duplicate_reported_as_cross_section :
    restEnroll stateDup 10 1 false =
      (.httpError 409 "Already enrolled in another section of this course", stateDup) ∧
    grpcEnroll stateDup 10 1 false =
      (.err .alreadyExists "Already enrolled in another section of this course", stateDup) ∧
    (restEnroll stateDup 10 1 false).1 ≠
      .httpError 409 "Already enrolled in this course section" ∧
    (grpcEnroll stateDup 10 1 false).1 ≠
      .err .alreadyExists "Already enrolled in this course section" := by
  refine ⟨rfl, rfl, ?_, ?_⟩ <;> decide

/-- C3: when an admission yields an enrollment record (a fresh insert or, on
the gRPC path, the reuse of a DROPPED record), its status is ENROLLED iff
the count of existing ENROLLED records for that course is strictly below the
capacity of the course, and WAITLISTED otherwise; for a capacity-0 course every
admission is WAITLISTED. -/
theorem c3_status_iff_under_capacity (s : State) (sid cid : Nat) (c : Course)
    (i sd cd : Nat) (st : EnrollmentStatus) (tm ay : String) (s2 : State)
    (hc : findCourse s.courses cid = some c)
    (h : restEnroll s sid cid false =
           (.ok { id := i, student_id := sd, course_id := cd, status := st }, s2) ∨
         grpcEnroll s sid cid false =
           (.ok { id := i, student_id := sd, course_id := cd, status := st,
                  term := tm, academic_year := ay }, s2)) :
    (st = .enrolled ↔ enrolledCount s.enrollments cid < c.capacity) ∧
    (¬ enrolledCount s.enrollments cid < c.capacity → st = .waitlisted) ∧
    (c.capacity = 0 → st = .waitlisted) := by
  have hst : st = (if enrolledCount s.enrollments cid < c.capacity then
      EnrollmentStatus.enrolled else EnrollmentStatus.waitlisted) := by
    rcases h with h | h
    · obtain ⟨c', hc', _, _, hr, _⟩ := restEnroll_ok_inv h
      rw [hc] at hc'
      injection hc' with hcc
      subst hcc
      exact congrArg RestRecord.status hr
    · obtain ⟨c', hc', hr, _⟩ := grpcEnroll_ok_inv h
      rw [hc] at hc'
      injection hc' with hcc
      subst hcc
      exact hr
  subst hst
  refine ⟨?_, ?_, ?_⟩
  · by_cases hP : enrolledCount s.enrollments cid < c.capacity
    · simp [hP]
    · simp [hP]
  · intro hP
    simp [hP]
  · intro h0
    simp [h0]

/-- Witness for `c3_status_iff_under_capacity`: admitting student 10 into
the empty capacity-30 course 1 through the REST handler. -/
theorem c3_status_iff_under_capacity_witness :
    (EnrollmentStatus.enrolled = .enrolled ↔
      enrolledCount stateFresh.enrollments 1 < courseCS1.capacity) ∧
    (¬ enrolledCount stateFresh.enrollments 1 < courseCS1.capacity →
      EnrollmentStatus.enrolled = .waitlisted) ∧
    (courseCS1.capacity = 0 → EnrollmentStatus.enrolled = .waitlisted) :=
  c3_status_iff_under_capacity stateFresh 10 1 courseCS1 0 10 1 .enrolled "" "" _
    rfl (Or.inl rfl)

/-- C5: when the student holds a non-dropped enrollment in a different
section (same course code, different course id), Admit fails in both
transports with the cross-section reason and leaves the enrollments table
unchanged. -/
theorem c5_cross_section_conflict (s : State) (sid cid : Nat) (c : Course) (e : Enrollment)
    (c' : Course) (races : Bool)
    (hc : findCourse s.courses cid = some c)
    (he : e ∈ s.enrollments) (hsid : e.student_id = sid) (hst : e.status ≠ .dropped)
    (hc' : c' ∈ s.courses) (hcid' : c'.id = e.course_id) (hcode : c'.code = c.code)
    (_hdiff : e.course_id ≠ cid) :
    restEnroll s sid cid races =
      (.httpError 409 "Already enrolled in another section of this course",
        ensureStudent s sid) ∧
    (restEnroll s sid cid races).2.enrollments = s.enrollments ∧
    grpcEnroll s sid cid races =
      (.err .alreadyExists "Already enrolled in another section of this course", s) := by
  have hhit : crossSectionHit s.courses s.enrollments sid c.code = true :=
    crossSectionHit_of_witness he hsid hst hc' hcid' hcode
  have h1 : restEnroll s sid cid races =
      (.httpError 409 "Already enrolled in another section of this course",
        ensureStudent s sid) := by
    unfold restEnroll
    rw [hc]
    simp only [ensureStudent_courses, ensureStudent_enrollments, hhit, if_true]
  have h2 : grpcEnroll s sid cid races =
      (.err .alreadyExists "Already enrolled in another section of this course", s) := by
    unfold grpcEnroll
    rw [hc]
    simp only [hhit, if_true]
  exact ⟨h1, by rw [h1]; exact ensureStudent_enrollments s sid, h2⟩

/-- Witness for `c5_cross_section_conflict`: student 10 already holds an
ENROLLED record in section 1 of CS101 and asks for section 2. -/
theorem c5_cross_section_conflict_witness :
    restEnroll stateTwoSections 10 2 false =
      (.httpError 409 "Already enrolled in another section of this course",
        ensureStudent stateTwoSections 10) ∧
    (restEnroll stateTwoSections 10 2 false).2.enrollments = stateTwoSections.enrollments ∧
    grpcEnroll stateTwoSections 10 2 false =
      (.err .alreadyExists "Already enrolled in another section of this course",
        stateTwoSections) :=
  c5_cross_section_conflict stateTwoSections 10 2 courseCS1sec2
    { id := 100, student_id := 10, course_id := 1, status := .enrolled } courseCS1 false
    rfl (by decide) rfl (by decide) (by decide) rfl rfl (by decide)

/-- C6: DropEnrollment fails with NOT_FOUND when no record with the id
exists; on an existing (joined) record it sets status DROPPED
unconditionally, returns the updated record with the term and
academic year of the course, is idempotent on already-dropped records, and leaves every
other record — in particular every WAITLISTED record of the same course —
untouched. -/
theorem c6_drop_workflow (s : State) (eid : Nat) :
    ((∀ e ∈ s.enrollments, e.id ≠ eid) →
      dropEnrollment s eid = (.err .notFound "Enrollment not found", s)) ∧
    (∀ e c, dropLookup s eid = some (e, c) →
      dropEnrollment s eid =
        (.ok { id := e.id, student_id := e.student_id, course_id := e.course_id,
               status := .dropped, term := c.term.getD "",
               academic_year := c.academic_year.getD "" },
          { s with enrollments := setStatus s.enrollments e.id .dropped }) ∧
      e.id = eid ∧
      ((∀ x ∈ s.enrollments, x.id = eid → x.status = .dropped) →
        setStatus s.enrollments e.id .dropped = s.enrollments) ∧
      (∀ x ∈ s.enrollments, x.id ≠ eid →
        x ∈ setStatus s.enrollments e.id EnrollmentStatus.dropped)) := by
  constructor
  · intro hnone
    have hlook : dropLookup s eid = none := by
      unfold dropLookup
      rw [List.find?_eq_none]
      intro p hp
      rw [List.mem_filterMap] at hp
      obtain ⟨a, ha, hfa⟩ := hp
      have hp1 : p.1 = a := by
        cases hfc : findCourse s.courses a.course_id <;> rw [hfc] at hfa
        · cases hfa
        · injection hfa with hfa'
          rw [← hfa']
      simp only [hp1]
      simpa using hnone a ha
    unfold dropEnrollment
    rw [hlook]
  · intro e c hsome
    have heid : e.id = eid := by
      have := List.find?_some hsome
      simpa using this
    refine ⟨?_, heid, ?_, ?_⟩
    · unfold dropEnrollment
      rw [hsome]
    · intro hall
      unfold setStatus
      have : ∀ x ∈ s.enrollments,
          (if x.id == e.id then { x with status := EnrollmentStatus.dropped } else x) = x := by
        intro x hx
        by_cases hxe : x.id = e.id
        · have hdx : x.status = .dropped := hall x hx (by rw [hxe, heid])
          simp only [hxe, beq_self_eq_true, if_true]
          cases x
          simp_all
        · simp [hxe]
      rw [List.map_congr_left this]
      simp
    · intro x hx hxne
      unfold setStatus
      rw [List.mem_map]
      refine ⟨x, hx, ?_⟩
      have : (x.id == e.id) = false := by
        rw [heid]
        simpa using hxne
      simp [this]

/-- Witness for `c6_drop_workflow`: dropping record 100 (currently ENROLLED)
at `stateDup` succeeds and returns the record as DROPPED with the term and year of
the course. -/
theorem c6_drop_workflow_witness :
    dropEnrollment stateDup 100 =
      (.ok { id := 100, student_id := 10, course_id := 1,
             status := .dropped, term := "T1", academic_year := "AY2025" },
        { stateDup with enrollments := setStatus stateDup.enrollments 100 .dropped }) :=
  ((c6_drop_workflow stateDup 100).2
    { id := 100, student_id := 10, course_id := 1, status := .enrolled } courseCS1 rfl).1

theorem rosterRows_mem {s : State} {cid : Nat} {p : Enrollment × Student}
    (hp : p ∈ rosterRows s cid) :
    p.1 ∈ s.enrollments ∧ p.1.course_id = cid ∧ p.1.status = .enrolled ∧
    s.students.find? (fun t => t.id == p.1.student_id) = some p.2 := by
  unfold rosterRows at hp
  rw [List.mem_filterMap] at hp
  obtain ⟨a, ha, hfa⟩ := hp
  split at hfa
  · rename_i hcond
    cases hfind : s.students.find? (fun t => t.id == a.student_id) <;> rw [hfind] at hfa
    · cases hfa
    · rename_i st
      injection hfa with hp'
      subst hp'
      simp only [Bool.and_eq_true, beq_iff_eq] at hcond
      exact ⟨ha, hcond.1, hcond.2, hfind⟩
  · cases hfa

theorem rosterAux_complete (sts : List Student) (cid : Nat) (es : List Enrollment)
    (hall : ∀ e ∈ es, e.course_id = cid → e.status = .enrolled →
      ∃ st, sts.find? (fun t => t.id == e.student_id) = some st) :
    (es.filterMap (fun e =>
      if e.course_id == cid && e.status == EnrollmentStatus.enrolled then
        (sts.find? (fun st => st.id == e.student_id)).map (fun st => (e, st))
      else none)).map (fun p => p.1.student_id) =
    (es.filter (fun e => e.course_id == cid && e.status == EnrollmentStatus.enrolled)).map
      (fun e => e.student_id) := by
  induction es with
  | nil => rfl
  | cons e tl ih =>
    have htl := fun x hx => hall x (List.mem_cons_of_mem _ hx)
    by_cases hcond : (e.course_id == cid && e.status == EnrollmentStatus.enrolled) = true
    · have hcid : e.course_id = cid := by
        have := ((Bool.and_eq_true _ _).mp hcond).1
        simpa using this
      have henr : e.status = .enrolled := by
        have := ((Bool.and_eq_true _ _).mp hcond).2
        simpa using this
      obtain ⟨st, hst⟩ := hall e (List.mem_cons_self e tl) hcid henr
      simp only [List.filterMap_cons, List.filter_cons, hcond, if_true, hst,
        Option.map_some', List.map_cons]
      rw [ih htl]
    · simp only [List.filterMap_cons, List.filter_cons, hcond, if_false]
      exact ih htl

/-- C7: the course roster lists exactly the ENROLLED records of the course —
never a WAITLISTED or DROPPED one — and each entry carries the display name
and external student number of the matching student shadow row. -/
theorem c7_roster_enrolled_only (s : State) (cid : Nat) :
    (∀ entry ∈ listCourseRoster s cid, entry.status = .enrolled) ∧
    ((∀ e ∈ s.enrollments, e.course_id = cid → e.status = .enrolled →
        ∃ st, s.students.find? (fun t => t.id == e.student_id) = some st) →
      (listCourseRoster s cid).map (fun en => en.student_id) =
        (s.enrollments.filter
          (fun e => e.course_id == cid && e.status == EnrollmentStatus.enrolled)).map
          (fun e => e.student_id)) ∧
    (∀ entry ∈ listCourseRoster s cid, ∃ st,
      s.students.find? (fun t => t.id == entry.student_id) = some st ∧
      entry.student_name = st.name ∧ entry.user_number = st.user_number.getD "") := by
  refine ⟨?_, ?_, ?_⟩
  · intro entry hentry
    unfold listCourseRoster at hentry
    rw [List.mem_map] at hentry
    obtain ⟨p, hp, hentry⟩ := hentry
    obtain ⟨_, _, hst, _⟩ := rosterRows_mem hp
    rw [← hentry]
    exact hst
  · intro hall
    unfold listCourseRoster
    rw [List.map_map]
    exact rosterAux_complete s.students cid s.enrollments hall
  · intro entry hentry
    unfold listCourseRoster at hentry
    rw [List.mem_map] at hentry
    obtain ⟨p, hp, hentry⟩ := hentry
    obtain ⟨_, _, _, hfind⟩ := rosterRows_mem hp
    exact ⟨p.2, by rw [← hentry]; exact hfind, by rw [← hentry], by rw [← hentry]⟩

/-- Witness for `c7_roster_enrolled_only`: at `stateDup` the roster of
course 1 is exactly student 10. -/
theorem c7_roster_enrolled_only_witness :
    (listCourseRoster stateDup 1).map (fun en => en.student_id) =
      (stateDup.enrollments.filter
        (fun e => e.course_id == 1 && e.status == EnrollmentStatus.enrolled)).map
        (fun e => e.student_id) :=
  (c7_roster_enrolled_only stateDup 1).2.1 (by
    intro e he hcid hen
    simp only [stateDup, List.mem_singleton] at he
    subst he
    exact ⟨alice, rfl⟩)

/-- C8: when the admission reaches its insert and the insert loses the
storage-level uniqueness race on (student_id, course_id) — `IntegrityError`
raised at commit — both handlers catch it, roll the transaction back, and
answer DuplicateEnrollment (HTTP 409 / gRPC ALREADY_EXISTS) with the
enrollments table unchanged. -/
theorem c8_lost_race_is_duplicate (s : State) (sid cid : Nat) (c : Course)
    (hc : findCourse s.courses cid = some c)
    (hcross : crossSectionHit s.courses s.enrollments sid c.code = false)
    (hpair : findSamePair s.enrollments sid cid = none) :
    restEnroll s sid cid true =
      (.httpError 409 "Already enrolled", ensureStudent s sid) ∧
    (restEnroll s sid cid true).2.enrollments = s.enrollments ∧
    grpcEnroll s sid cid true =
      (.err .alreadyExists "Already enrolled", ensureStudent s sid) ∧
    (grpcEnroll s sid cid true).2.enrollments = s.enrollments := by
  have h1 : restEnroll s sid cid true =
      (.httpError 409 "Already enrolled", ensureStudent s sid) := by
    unfold restEnroll
    rw [hc]
    simp [ensureStudent_courses, ensureStudent_enrollments, hcross, hpair]
  have h2 : grpcEnroll s sid cid true =
      (.err .alreadyExists "Already enrolled", ensureStudent s sid) := by
    unfold grpcEnroll
    rw [hc]
    simp [hcross, hpair]
  refine ⟨h1, ?_, h2, ?_⟩
  · rw [h1]
    exact ensureStudent_enrollments s sid
  · rw [h2]
    exact ensureStudent_enrollments s sid

/-- Witness for `c8_lost_race_is_duplicate`: a racing insert into the empty
course 1 at `stateFresh`. -/
theorem c8_lost_race_is_duplicate_witness :
    restEnroll stateFresh 10 1 true =
      (.httpError 409 "Already enrolled", ensureStudent stateFresh 10) ∧
    (restEnroll stateFresh 10 1 true).2.enrollments = stateFresh.enrollments ∧
    grpcEnroll stateFresh 10 1 true =
      (.err .alreadyExists "Already enrolled", ensureStudent stateFresh 10) ∧
    (grpcEnroll stateFresh 10 1 true).2.enrollments = stateFresh.enrollments :=
  c8_lost_race_is_duplicate stateFresh 10 1 courseCS1 rfl rfl rfl

/-- C10: a failing Admit never creates or mutates an enrollment record in
either transport; on the REST path every non-404 failure happens after
`ensure_student` has already committed, so the student shadow row exists in
the post-state even though the admission failed, and the only possible
students-table change is the appended shadow row. -/
theorem c10_failed_admit_preserves_enrollments (s : State) (sid cid : Nat) (races : Bool)
    (code : Nat) (detail : String) (s2 : State)
    (gcode : GrpcCode) (gdetail : String) (g2 : State)
    (hr : restEnroll s sid cid races = (.httpError code detail, s2))
    (hg : grpcEnroll s sid cid races = (.err gcode gdetail, g2)) :
    s2.enrollments = s.enrollments ∧ g2.enrollments = s.enrollments ∧
    (code = 404 → s2 = s) ∧
    (code ≠ 404 → studentExists s2.students sid = true) ∧
    (s2.students = s.students ∨
      s2.students = s.students ++ [{ id := sid, name := "", user_number := none }]) := by
  obtain ⟨hen, _, h404, hne⟩ := restEnroll_err_inv hr
  obtain ⟨hgen, _, _⟩ := grpcEnroll_err_inv hg
  refine ⟨hen, hgen, h404, ?_, ?_⟩
  · intro hcode
    rw [hne hcode]
    exact studentExists_ensureStudent s sid
  · by_cases hcode : code = 404
    · rw [h404 hcode]
      exact Or.inl rfl
    · rw [hne hcode]
      exact ensureStudent_students_cases s sid

/-- Witness for `c10_failed_admit_preserves_enrollments`: Admit for the
nonexistent course 99 at `stateFresh` fails 404 in both transports. -/
theorem c10_failed_admit_preserves_enrollments_witness :
    stateFresh.enrollments = stateFresh.enrollments ∧
    stateFresh.enrollments = stateFresh.enrollments ∧
    ((404 : Nat) = 404 → stateFresh = stateFresh) ∧
    ((404 : Nat) ≠ 404 → studentExists stateFresh.students 10 = true) ∧
    (stateFresh.students = stateFresh.students ∨
      stateFresh.students = stateFresh.students ++
        [{ id := 10, name := "", user_number := none }]) :=
  c10_failed_admit_preserves_enrollments stateFresh 10 99 false 404 "Course not found"
    stateFresh .notFound "Course not found" stateFresh rfl rfl

/-! ### Preservation of the reachable-state invariant -/

theorem eq_of_mem_of_same_id {es : List Enrollment} {a b : Enrollment}
    (hp : PairInv es) (ha : a ∈ es) (hb : b ∈ es) (hid : a.id = b.id) : a = b := by
  by_contra hne
  have hids : es.Pairwise (fun e1 e2 => e1.id ≠ e2.id) := by
    unfold PairInv at hp
    exact hp.imp (fun h => h.1)
  have hsymm : Symmetric (fun e1 e2 : Enrollment => e1.id ≠ e2.id) := fun x y h => Ne.symm h
  exact List.Pairwise.forall hsymm hids ha hb hne hid

theorem pairInv_setStatus {es : List Enrollment} (eid : Nat) (st : EnrollmentStatus)
    (hp : PairInv es) : PairInv (setStatus es eid st) := by
  unfold PairInv setStatus at *
  rw [List.pairwise_map]
  have fid : ∀ e : Enrollment,
      ((if e.id == eid then { e with status := st } else e) : Enrollment).id = e.id :=
    fun e => by split <;> rfl
  have fsid : ∀ e : Enrollment,
      ((if e.id == eid then { e with status := st } else e) : Enrollment).student_id =
        e.student_id :=
    fun e => by split <;> rfl
  have fcid : ∀ e : Enrollment,
      ((if e.id == eid then { e with status := st } else e) : Enrollment).course_id =
        e.course_id :=
    fun e => by split <;> rfl
  refine hp.imp ?_
  intro a b hab
  rw [fid a, fid b, fsid a, fsid b, fcid a, fcid b]
  exact hab

theorem idBound_setStatus {es : List Enrollment} {n : Nat} (eid : Nat)
    (st : EnrollmentStatus) (hb : ∀ e ∈ es, e.id < n) :
    ∀ e ∈ setStatus es eid st, e.id < n := by
  intro e he
  obtain ⟨e0, he0, heq, _, _⟩ := setStatus_id es eid st e he
  rw [heq]
  exact hb e0 he0

theorem uniqueActiveCode_setStatus_dropped {cs : List Course} {es : List Enrollment}
    (eid : Nat) (h : UniqueActiveCode cs es) :
    UniqueActiveCode cs (setStatus es eid EnrollmentStatus.dropped) := by
  unfold UniqueActiveCode setStatus at *
  rw [List.pairwise_map]
  refine h.imp ?_
  intro a b hab h1 h2 hstu k hk
  by_cases ha : (a.id == eid) = true
  · exfalso
    apply h1
    rw [if_pos ha]
  · rw [if_neg ha] at h1 hstu hk
    by_cases hb : (b.id == eid) = true
    · exfalso
      apply h2
      rw [if_pos hb]
    · rw [if_neg hb] at h2 hstu ⊢
      exact hab h1 h2 hstu k hk

theorem codeOf_of_findCourse {cs : List Course} {cid : Nat} {c : Course}
    (hc : findCourse cs cid = some c) : codeOf cs cid = some c.code := by
  unfold codeOf
  rw [hc]
  rfl

theorem uniqueActiveCode_setStatus_reuse {cs : List Course} {es : List Enrollment}
    {sid cid : Nat} {ex : Enrollment} {c : Course} (st : EnrollmentStatus)
    (hp : PairInv es) (hcode : UniqueActiveCode cs es)
    (hex : ex ∈ es) (hexsid : ex.student_id = sid) (hexcid : ex.course_id = cid)
    (hc : findCourse cs cid = some c)
    (hcross : crossSectionHit cs es sid c.code = false) :
    UniqueActiveCode cs (setStatus es ex.id st) := by
  have hno := not_crossSectionHit hcross
  have hpc : es.Pairwise (fun a b =>
      (a.id ≠ b.id ∧ ¬(a.student_id = b.student_id ∧ a.course_id = b.course_id)) ∧
      (a.status ≠ .dropped → b.status ≠ .dropped → a.student_id = b.student_id →
        ∀ k, codeOf cs a.course_id = some k → codeOf cs b.course_id ≠ some k)) :=
    List.Pairwise.and hp hcode
  unfold UniqueActiveCode setStatus
  rw [List.pairwise_map]
  refine List.Pairwise.imp_of_mem ?_ hpc
  intro a b ha hb hab
  obtain ⟨⟨hid, _⟩, hR⟩ := hab
  intro h1 h2 hstu k hk
  by_cases ha' : (a.id == ex.id) = true
  · have haex : a = ex := eq_of_mem_of_same_id hp ha hex (by simpa using ha')
    by_cases hb' : (b.id == ex.id) = true
    · have hbex : b = ex := eq_of_mem_of_same_id hp hb hex (by simpa using hb')
      exact absurd (haex ▸ hbex ▸ rfl) hid
    · rw [if_pos ha'] at hstu hk
      rw [if_neg hb'] at h2 hstu ⊢
      intro hkb
      -- the reused record sits in course `cid` whose code is `c.code`
      have hka : codeOf cs cid = some k := by
        have hac : a.course_id = cid := by rw [haex]; exact hexcid
        have hk' : codeOf cs a.course_id = some k := hk
        rw [← hac]
        exact hk'
      have hkc : k = c.code := by
        rw [codeOf_of_findCourse hc] at hka
        exact (Option.some.inj hka).symm
      obtain ⟨cb, hcb, hcbk⟩ := codeOf_eq_some.mp hkb
      obtain ⟨hcbmem, hcbid⟩ := findCourse_mem hcb
      have hbsid : b.student_id = sid := by
        have h' : a.student_id = b.student_id := hstu
        rw [← h', haex, hexsid]
      exact hno b hb hbsid h2 cb hcbmem hcbid (hcbk.trans hkc)
  · rw [if_neg ha'] at h1 hstu hk
    by_cases hb' : (b.id == ex.id) = true
    · have hbex : b = ex := eq_of_mem_of_same_id hp hb hex (by simpa using hb')
      rw [if_pos hb'] at hstu ⊢
      intro hkb
      have hkb0 : codeOf cs b.course_id = some k := hkb
      have hkb' : codeOf cs cid = some k := by
        have hbc : b.course_id = cid := by rw [hbex]; exact hexcid
        rw [← hbc]
        exact hkb0
      have hkc : k = c.code := by
        rw [codeOf_of_findCourse hc] at hkb'
        exact (Option.some.inj hkb').symm
      obtain ⟨ca, hca, hcak⟩ := codeOf_eq_some.mp hk
      obtain ⟨hcamem, hcaid⟩ := findCourse_mem hca
      have hasid : a.student_id = sid := by
        have h' : a.student_id = b.student_id := hstu
        rw [h', hbex, hexsid]
      exact hno a ha hasid h1 ca hcamem hcaid (hcak.trans hkc)
    · rw [if_neg hb'] at h2 hstu ⊢
      exact hR h1 h2 hstu k hk

theorem pairInv_insert {es : List Enrollment} {sid cid n : Nat} {st : EnrollmentStatus}
    (hp : PairInv es) (hbound : ∀ e ∈ es, e.id < n)
    (hpair : ∀ e ∈ es, ¬(e.student_id = sid ∧ e.course_id = cid)) :
    PairInv (es ++ [{ id := n, student_id := sid, course_id := cid, status := st }]) := by
  unfold PairInv at *
  rw [List.pairwise_append]
  refine ⟨hp, List.pairwise_singleton _ _, ?_⟩
  intro a ha b hb
  rw [List.mem_singleton] at hb
  subst hb
  exact ⟨Nat.ne_of_lt (hbound a ha), hpair a ha⟩

theorem uniqueActiveCode_insert {cs : List Course} {es : List Enrollment}
    {sid cid n : Nat} {st : EnrollmentStatus} {c : Course}
    (hcode : UniqueActiveCode cs es) (hc : findCourse cs cid = some c)
    (hcross : crossSectionHit cs es sid c.code = false) :
    UniqueActiveCode cs
      (es ++ [{ id := n, student_id := sid, course_id := cid, status := st }]) := by
  unfold UniqueActiveCode at *
  rw [List.pairwise_append]
  refine ⟨hcode, List.pairwise_singleton _ _, ?_⟩
  intro a ha b hb
  rw [List.mem_singleton] at hb
  subst hb
  intro h1 _ hstu k hk hknew
  have hkc : k = c.code := by
    have : codeOf cs cid = some k := hknew
    rw [codeOf_of_findCourse hc] at this
    exact (Option.some.injEq _ _ ▸ this).symm
  obtain ⟨ca, hca, hcak⟩ := codeOf_eq_some.mp hk
  obtain ⟨hcamem, hcaid⟩ := findCourse_mem hca
  exact not_crossSectionHit hcross a ha hstu h1 ca hcamem hcaid (hcak.trans hkc)

theorem inv_applyOp (s : State) (op : Op) (h : Inv s) : Inv (applyOp s op) := by
  obtain ⟨hp, hcode, hb⟩ := h
  cases op with
  | viaRest sid cid races =>
    show Inv (restEnroll s sid cid races).2
    rcases restEnroll_state_cases s sid cid races with
      ⟨hcs, hes, hn⟩ | ⟨c, hc, hcross, hpair, hcs, hn, st, hes⟩
    · refine ⟨?_, ?_, ?_⟩
      · rw [hes]; exact hp
      · rw [hcs, hes]; exact hcode
      · rw [hes, hn]; exact hb
    · refine ⟨?_, ?_, ?_⟩
      · rw [hes]
        exact pairInv_insert hp hb (findSamePair_none hpair)
      · rw [hcs, hes]
        exact uniqueActiveCode_insert hcode hc hcross
      · rw [hes, hn]
        intro e he
        rcases List.mem_append.mp he with h' | h'
        · exact Nat.lt_succ_of_lt (hb e h')
        · rw [List.mem_singleton] at h'
          subst h'
          exact Nat.lt_succ_self _
  | viaGrpc sid cid races =>
    show Inv (grpcEnroll s sid cid races).2
    rcases grpcEnroll_state_cases s sid cid races with
      ⟨hcs, hes, hn⟩ | ⟨c, hc, hcross, hpair, hcs, hn, st, hes⟩ |
      ⟨c, ex, st, hc, hcross, hpair, _, hcs, hn, hes⟩
    · refine ⟨?_, ?_, ?_⟩
      · rw [hes]; exact hp
      · rw [hcs, hes]; exact hcode
      · rw [hes, hn]; exact hb
    · refine ⟨?_, ?_, ?_⟩
      · rw [hes]
        exact pairInv_insert hp hb (findSamePair_none hpair)
      · rw [hcs, hes]
        exact uniqueActiveCode_insert hcode hc hcross
      · rw [hes, hn]
        intro e he
        rcases List.mem_append.mp he with h' | h'
        · exact Nat.lt_succ_of_lt (hb e h')
        · rw [List.mem_singleton] at h'
          subst h'
          exact Nat.lt_succ_self _
    · obtain ⟨hexmem, hexsid, hexcid⟩ := findSamePair_some hpair
      refine ⟨?_, ?_, ?_⟩
      · rw [hes]
        exact pairInv_setStatus ex.id st hp
      · rw [hcs, hes]
        exact uniqueActiveCode_setStatus_reuse st hp hcode hexmem hexsid hexcid hc hcross
      · rw [hes, hn]
        exact idBound_setStatus ex.id st hb
  | viaDrop eid =>
    show Inv (dropEnrollment s eid).2
    rcases dropEnrollment_state_cases s eid with h' | ⟨hcs, hn, eid0, hes⟩
    · rw [h']
      exact ⟨hp, hcode, hb⟩
    · refine ⟨?_, ?_, ?_⟩
      · rw [hes]
        exact pairInv_setStatus eid0 .dropped hp
      · rw [hcs, hes]
        exact uniqueActiveCode_setStatus_dropped eid0 hcode
      · rw [hes, hn]
        exact idBound_setStatus eid0 .dropped hb

/-- C4: every state reachable from an empty roster by any sequence of REST
admissions, gRPC admissions and drops has at most one non-dropped record per
(student_id, course_id) pair and at most one non-dropped record per
(student, course-code) pair across all sections sharing that code. -/
theorem c4_reachable_states_unique (cs : List Course) (sts : List Student) (n : Nat)
    (ops : List Op) :
    UniqueActivePair
      (runOps { courses := cs, students := sts, enrollments := [], nextId := n } ops).enrollments ∧
    UniqueActiveCode
      (runOps { courses := cs, students := sts, enrollments := [], nextId := n } ops).courses
      (runOps { courses := cs, students := sts, enrollments := [], nextId := n } ops).enrollments := by
  have key : ∀ (l : List Op) (s : State), Inv s → Inv (runOps s l) := by
    intro l
    induction l with
    | nil => exact fun s hs => hs
    | cons op tl ih => exact fun s hs => ih _ (inv_applyOp s op hs)
  have h0 : Inv { courses := cs, students := sts, enrollments := [], nextId := n } :=
    ⟨List.Pairwise.nil, List.Pairwise.nil, fun e he => absurd he (List.not_mem_nil e)⟩
  obtain ⟨hp, hcode, _⟩ := key ops _ h0
  constructor
  · unfold UniqueActivePair
    unfold PairInv at hp
    exact hp.imp (fun h _ _ => h.2)
  · exact hcode

end EnrollmentSvc
